import Mathlib

/-!
# Verification of the Colombian street-address geocoder

Shallow embedding of the geocoding pipeline (parser, searcher, segment
matcher, interpolator, coordinate generator, service orchestrator) and of
the GeoJSON ingester, together with theorems settling the specification
claims.

Conventions of the embedding:
* Python `Decimal`/`float` arithmetic is modelled over `ℚ` (the claims under
  scrutiny are about the ideal formulas, not float rounding).
* Fallible Python code (code that can raise) is modelled with `Option` /
  `Except`.
* `re` character classes are modelled over ASCII (`\s` as
  `Char.isWhitespace`, `\d` as `Char.isDigit`, `[A-Z]` with `IGNORECASE`
  as ASCII letters); the reference corpus and every claim stay within
  ASCII for these tokens.
-/

namespace Geocode

/-! ## Address parser (src/modules/geocoding/parser.py)

The regex

  (?P<street_type>AUTOPISTA|TRANSVERSAL|CIRCULAR|DIAGONAL|AVENIDA|CARRERA|
      CALLE|AUT|CIR|TV|DG|AV|KR|CR|CL|CA)\s*
  (?P<street_name>\d+[A-Z]?)\s*
  #?\s*
  (?P<number_prefix>\d+[A-Z]?)\s*
  [-\s]?\s*
  (?P<number_suffix>\d+)?

with `re.IGNORECASE`, applied with `.search` (leftmost match, alternation
tried in order, greedy quantifiers with backtracking).  The embedding
reproduces the engine's deterministic leftmost/greedy/backtracking
behaviour: after the street-type literal and `\s*`, a maximal digit run `d`
is read; the first full-greedy attempt takes all of `d` as street_name,
an optional letter, `\s* #? \s*`, and needs a further digit run for
number_prefix.  If that digit run is empty, the only backtracking point
that can restore success is the street-name `\d+` giving back its last
digit (all intermediate `\s*`/`#?`/`[A-Z]?` choice points fail because the
following `\d+` then starts on a non-digit), which requires `d` to have
length at least 2.  This behaviour was cross-checked against the engine on
the format variations exercised by the repository's test-suite.
-/

def isSpaceC (c : Char) : Bool := c.isWhitespace

def isDigitC (c : Char) : Bool := c.isDigit

def isAlphaC (c : Char) : Bool :=
  (('A' ≤ c) && (c ≤ 'Z')) || (('a' ≤ c) && (c ≤ 'z'))

def upChar (c : Char) : Char := c.toUpper

/-- The street-type alternation of `AddressParser.PATTERN`, in the order in
which the regex engine tries the alternatives. -/
def altList : List (List Char) :=
  ["AUTOPISTA".data, "TRANSVERSAL".data, "CIRCULAR".data, "DIAGONAL".data,
   "AVENIDA".data, "CARRERA".data, "CALLE".data, "AUT".data, "CIR".data,
   "TV".data, "DG".data, "AV".data, "KR".data, "CR".data, "CL".data,
   "CA".data]

/-- Case-insensitive prefix test (the literal alternative is stored
upper-case; input characters are upper-cased before comparison). -/
def ciPrefix : List Char → List Char → Bool
  | [], _ => true
  | _ :: _, [] => false
  | a :: as, c :: cs => (upChar c == a) && ciPrefix as cs

/-- `[A-Z]?` with IGNORECASE: greedily take one letter if present. -/
def takeLetterOpt : List Char → (List Char × List Char)
  | [] => ([], [])
  | c :: t => if isAlphaC c then ([c], t) else ([], c :: t)

/-- The separator `\s*[-\s]?\s*` between number_prefix and number_suffix. -/
def afterNumSep (u : List Char) : List Char :=
  let a := u.dropWhile isSpaceC
  match a with
  | c :: t => if (c == '-') || isSpaceC c then t.dropWhile isSpaceC else a
  | [] => a

/-- The optional suffix group `(?P<number_suffix>\d+)?`. -/
def suffixAt (u : List Char) : Option (List Char) :=
  let s := u.takeWhile isDigitC
  if s.isEmpty then none else some s

/-- `#?`: strip one leading hash if present. -/
def afterHash (u : List Char) : List Char :=
  match u with
  | c :: t => if c == '#' then t else c :: t
  | [] => []

/-- The maximal digit run read after the street-type literal and `\s*`
(first greedy reading of the street_name group's `\d+`). -/
def nameRun (u : List Char) : List Char :=
  (u.dropWhile isSpaceC).takeWhile isDigitC

/-- What remains of the input after that digit run. -/
def afterRun (u : List Char) : List Char :=
  (u.dropWhile isSpaceC).dropWhile isDigitC

/-- After the full digit run and `[A-Z]? \s* #? \s*`: the position at which
the number_prefix group's `\d+` is attempted in the full-greedy reading.
`u2` is `afterRun u`. -/
def preSearchTail (u2 : List Char) : List Char :=
  (afterHash (((takeLetterOpt u2).2).dropWhile isSpaceC)).dropWhile isSpaceC

/-- The digit run found there (empty when the full-greedy reading fails). -/
def prefixRun (u2 : List Char) : List Char :=
  (preSearchTail u2).takeWhile isDigitC

/-- Attempt of the pattern body after the street-type literal: returns the
raw (pre-upper-casing) `street_name`, `number_prefix` and optional
`number_suffix` captures. -/
def matchAfterAlt (u : List Char) : Option (List Char × List Char × Option (List Char)) :=
  if (nameRun u).isEmpty then none
  else if (prefixRun (afterRun u)).isEmpty then
    if 2 ≤ (nameRun u).length then
      -- backtracking: street_name gives back its last digit, which then
      -- satisfies number_prefix's `\d+`; its optional letter is read
      -- right after the digit run
      some ((nameRun u).dropLast,
            ((nameRun u).drop ((nameRun u).length - 1)) ++
              (takeLetterOpt (afterRun u)).1,
            suffixAt (afterNumSep (takeLetterOpt (afterRun u)).2))
    else none
  else
    -- full-greedy reading succeeds; after the prefix digits comes its
    -- optional letter, then the suffix separator
    some (nameRun u ++ (takeLetterOpt (afterRun u)).1,
          prefixRun (afterRun u) ++
            (takeLetterOpt ((preSearchTail (afterRun u)).dropWhile isDigitC)).1,
          suffixAt (afterNumSep
            (takeLetterOpt ((preSearchTail (afterRun u)).dropWhile isDigitC)).2))

/-- Try the whole pattern at one position: alternatives in order, each with
full backtracking of the body. -/
def matchAtPos (cs : List Char) : Option (List Char × List Char × List Char × Option (List Char)) :=
  altList.findSome? fun alt =>
    if ciPrefix alt cs then
      (matchAfterAlt (cs.drop alt.length)).map fun r => (alt, r.1, r.2.1, r.2.2)
    else none

/-- `re.search`: try the pattern at each position, leftmost first. -/
def searchM : List Char → Option (List Char × List Char × List Char × Option (List Char))
  | [] => none
  | c :: t =>
    match matchAtPos (c :: t) with
    | some r => some r
    | none => searchM t

/-- `STREET_TYPE_ABBREVIATIONS` from constants.py (note: the canonical
abbreviations CIR and AUT are not keys of the dict). -/
def STREET_TYPE_ABBREVIATIONS : List (String × String) :=
  [("CALLE", "CL"), ("CARRERA", "KR"), ("AVENIDA", "AV"), ("DIAGONAL", "DG"),
   ("TRANSVERSAL", "TV"), ("CIRCULAR", "CIR"), ("AUTOPISTA", "AUT"),
   ("VIA", "VIA"), ("CR", "KR"), ("CA", "CL"), ("AV", "AV"), ("CL", "CL"),
   ("KR", "KR"), ("DG", "DG"), ("TV", "TV")]

def strUp (l : List Char) : String := String.mk (l.map upChar)

/-- `AddressParser._normalize_street_type`: upper-case, look up in the
abbreviation map, else pass through unchanged. -/
def normalizeStreetType (s : String) : String :=
  let u := strUp s.data
  match STREET_TYPE_ABBREVIATIONS.find? (fun kv => kv.1 == u) with
  | some kv => kv.2
  | none => u

/-- `AddressComponents` (models.py). -/
structure AddressComponents where
  street_type : String
  street_name : String
  number_prefix : String
  number_suffix : Option String
  raw_address : String
deriving DecidableEq, Repr

def AddressComponents.full_street_name (c : AddressComponents) : String :=
  c.street_type ++ " " ++ c.street_name

def AddressComponents.full_number (c : AddressComponents) : String :=
  match c.number_suffix with
  | some s => c.number_prefix ++ "-" ++ s
  | none => c.number_prefix

/-- `AddressParser.parse`.  The matched street-type text upper-cased equals
the (upper-case) alternation literal that matched, so normalisation is
applied to the literal directly. -/
def parse (address : String) : Option AddressComponents :=
  if address.data.isEmpty then none
  else
    (searchM address.data).map fun r =>
      { street_type := normalizeStreetType (String.mk r.1)
        street_name := strUp r.2.1
        number_prefix := strUp r.2.2.1
        number_suffix := r.2.2.2.map strUp
        raw_address := address }

/-! ## Number helpers (parser.py / interpolator.py) -/

/-- Digits of a decimal literal to a natural number (`int(...)`). -/
def digitsToNat (l : List Char) : ℕ :=
  l.foldl (fun n c => 10 * n + (c.toNat - 48)) 0

/-- `PositionInterpolator._parse_number`: concatenate every digit run
("57-49" → 5749); no digits (including the empty string) → 0. -/
def parseNumberConcat (s : String) : ℕ :=
  digitsToNat (s.data.filter isDigitC)

/-- `_parse_number` applied to a value that may be `None`
(`if not number_str: return 0`). -/
def parseNumberConcatOpt : Option String → ℕ
  | none => 0
  | some s => parseNumberConcat s

/-- `PositionInterpolator.parse_number_simple`: first digit run only
("13 247" → 13); no digits → 0.  It never raises. -/
def parseNumberSimple (s : String) : ℕ :=
  digitsToNat ((s.data.dropWhile fun c => !isDigitC c).takeWhile isDigitC)

/-- `parse_number_simple(x)` for a possibly-`None` x: `str(None)` is
`"None"`, which has no digits, so the result is 0. -/
def parseNumberSimpleOpt : Option String → ℕ
  | none => 0
  | some s => parseNumberSimple s

/-! ## Data model (addresses/model.py, geocoding/models.py)

A stored address row; only `id` and the timestamps are omitted (they are
never read by the pipeline and the upsert's value columns do not include
them).  Coordinates are `Option ℚ` (the columns are nullable). -/

structure Address where
  hash : Option String := none
  number : Option String := none
  street : Option String := none
  unit : Option String := none
  city : Option String := none
  district : Option String := none
  region : Option String := none
  postcode : Option String := none
  external_id : Option String := none
  accuracy : Option String := none
  longitude : Option ℚ := none
  latitude : Option ℚ := none
deriving DecidableEq, Repr

/-- `StreetSegment` (models.py).  The Python dataclass annotates its fields
`str` and `Decimal`, but `find_segment` copies `Address` columns into them
unchecked, so at runtime they can hold `None`; the embedding keeps them
optional. -/
structure StreetSegment where
  street_name : Option String
  start_number : Option String
  end_number : Option String
  start_lat : Option ℚ
  start_lon : Option ℚ
  end_lat : Option ℚ
  end_lon : Option ℚ
  city : Option String
deriving DecidableEq, Repr

inductive Side where
  | LEFT : Side
  | RIGHT : Side
deriving DecidableEq, Repr

structure InterpolationResult where
  percentage : ℚ
  side : Side
  is_odd : Bool
deriving DecidableEq, Repr

/-! ## Geographic utils (utils.py) -/

/-- `clamp(value, min_value, max_value) = max(min_value, min(max_value, value))`. -/
def clamp (value min_value max_value : ℚ) : ℚ :=
  max min_value (min max_value value)

/-! ## Position interpolator (interpolator.py) -/

/-- `PositionInterpolator.interpolate`.  The trailing `Option` models
`InterpolationResult.__post_init__`, which raises when the percentage is
outside [0, 1] (provably never, see `interpolate_eq`). -/
def interpolate (target_number : String) (segment : StreetSegment) :
    Option InterpolationResult :=
  let target_num := parseNumberConcat target_number
  let start_num := parseNumberConcatOpt segment.start_number
  let end_num := parseNumberConcatOpt segment.end_number
  let raw : ℚ :=
    if end_num = start_num then 0
    else ((target_num : ℚ) - (start_num : ℚ)) / ((end_num : ℚ) - (start_num : ℚ))
  let percentage := clamp raw 0 1
  let is_odd := target_num % 2 == 1
  let side := if is_odd then Side.RIGHT else Side.LEFT
  if 0 ≤ percentage ∧ percentage ≤ 1 then
    some { percentage := percentage, side := side, is_odd := is_odd }
  else none

/-! ## Coordinate generator (generator.py) -/

/-- `CoordinateGenerator.generate_coordinates`: planar linear interpolation.
`none` models the `TypeError` raised by `float(None)` when a segment
endpoint lacks a coordinate. -/
def generateCoordinates (segment : StreetSegment) (percentage : ℚ) :
    Option (ℚ × ℚ) :=
  match segment.start_lat, segment.start_lon, segment.end_lat, segment.end_lon with
  | some start_lat, some start_lon, some end_lat, some end_lon =>
    some (start_lat + percentage * (end_lat - start_lat),
          start_lon + percentage * (end_lon - start_lon))
  | _, _, _, _ => none

/-- `CoordinateGenerator.apply_lateral_offset`.  The bearing and
destination-point trigonometry is not ℚ-representable and no claim
constrains its value; it is abstracted as the parameter `bearingOffset`
(taking the interpolated point, the four endpoint coordinates, the side
and the distance).  `none` again models `float(None)`. -/
def applyLateralOffset
    (bearingOffset : ℚ → ℚ → ((ℚ × ℚ) × (ℚ × ℚ)) → Side → ℚ → ℚ × ℚ)
    (lat lon : ℚ) (segment : StreetSegment) (side : Side) (distance_m : ℚ) :
    Option (ℚ × ℚ) :=
  match segment.start_lat, segment.start_lon, segment.end_lat, segment.end_lon with
  | some a, some b, some c, some d =>
    some (bearingOffset lat lon ((a, b), (c, d)) side distance_m)
  | _, _, _, _ => none

/-! ## Street searcher and segment matcher (searcher.py)

The store is modelled as a list of rows; the two-tier query becomes list
filtering.  `sorted`/`ORDER BY` are modelled with a stable insertion sort
(CPython's `sorted` is stable; insertion sort computes by `rfl`, which a
well-founded merge sort would not). -/

/-- Stable insertion of `a` into `l`: `a` goes before the first element it
is `le`-below-or-equal to, so earlier-listed elements with equal keys stay
first. -/
def insertLe {α : Type} (le : α → α → Bool) (a : α) : List α → List α
  | [] => [a]
  | b :: t => if le a b then a :: b :: t else b :: insertLe le a t

/-- Stable sort by `le` (a total preorder). -/
def stableSort {α : Type} (le : α → α → Bool) (l : List α) : List α :=
  l.foldr (insertLe le) []

/-- Lexicographic byte order on strings (the order a varchar index with a
byte-order collation delivers). -/
def strLeB : List Char → List Char → Bool
  | [], _ => true
  | _ :: _, [] => false
  | a :: as, b :: bs => if a.toNat = b.toNat then strLeB as bs else a.toNat ≤ b.toNat

/-- `ORDER BY number` on a nullable varchar column: lexicographic on the
string, `NULL`s last (PostgreSQL ascending default). -/
def optStrLe : Option String → Option String → Bool
  | some s, some t => strLeB s.data t.data
  | some _, none => true
  | none, some _ => false
  | none, none => true

/-- Case-insensitive substring test: `col ILIKE '%pat%'` for a pattern
containing no `%`/`_` wildcards (street names produced by the parser never
do).  A `NULL` column never matches. -/
def isSubList (pat : List Char) : List Char → Bool
  | [] => pat.isEmpty
  | c :: t => pat.isPrefixOf (c :: t) || isSubList pat t

def streetILike (col : Option String) (pat : String) : Bool :=
  match col with
  | some s => isSubList (pat.data.map upChar) (s.data.map upChar)
  | none => false

/-- `StreetSearcher.search_streets`: exact tier, else fuzzy tier; both
filter on city/region and coordinate presence, order by `number`, cap at
100. -/
def searchStreets (db : List Address) (street_name city region : String) :
    List Address :=
  let tier1 :=
    (stableSort (fun a b => optStrLe a.number b.number)
      (db.filter fun a =>
        (a.city == some city) && (a.street == some street_name) &&
        (a.region == some region) && a.latitude.isSome && a.longitude.isSome)).take 100
  if !tier1.isEmpty then tier1
  else
    (stableSort (fun a b => optStrLe a.number b.number)
      (db.filter fun a =>
        (a.city == some city) && streetILike a.street street_name &&
        (a.region == some region) && a.latitude.isSome && a.longitude.isSome)).take 100

/-- Sort key used by `find_segment`:
`parse_number_simple(x.number) if x.number else 0` (a `None` or empty
`number` both give 0). -/
def addrKey (a : Address) : ℕ := parseNumberSimpleOpt a.number

/-- Degenerate (single-point) segment at one address. -/
def degenerateSegment (a : Address) : StreetSegment :=
  { street_name := a.street, start_number := a.number, end_number := a.number,
    start_lat := a.latitude, start_lon := a.longitude,
    end_lat := a.latitude, end_lon := a.longitude, city := a.city }

/-- Segment from a start address to an end address. -/
def segmentOf (a b : Address) : StreetSegment :=
  { street_name := a.street, start_number := a.number, end_number := b.number,
    start_lat := a.latitude, start_lon := a.longitude,
    end_lat := b.latitude, end_lon := b.longitude, city := a.city }

/-- The adjacent-pair walk of `find_segment`: first pair `(a, b)` of
consecutive sorted candidates with `key a ≤ target ≤ key b`. -/
def findEnclosingPair (target_num : ℕ) : List Address → Option (Address × Address)
  | a :: b :: rest =>
    if addrKey a ≤ target_num ∧ target_num ≤ addrKey b then some (a, b)
    else findEnclosingPair target_num (b :: rest)
  | _ => none

/-- The argmin loop of `_get_closest_segment`: index of the candidate with
the smallest `|key - target|`, earliest index on ties (`<` comparison
against the running minimum).  `none` as running minimum models the
initial `float('inf')`. -/
def closestAux (target_num : ℕ) : List Address → ℕ → (ℕ × Option ℕ) → (ℕ × Option ℕ)
  | [], _, best => best
  | a :: rest, i, best =>
    let dist := ((addrKey a : ℤ) - (target_num : ℤ)).natAbs
    let better := match best.2 with
      | none => true
      | some m => decide (dist < m)
    closestAux target_num rest (i + 1) (if better then (i, some dist) else best)

def closestIdx (target_num : ℕ) (l : List Address) : ℕ :=
  (closestAux target_num l 0 (0, none)).1

/-- `StreetSearcher._get_closest_segment` (receives the sorted list).
If the closest index is not last, pair it with its successor, else with
its predecessor; the index is always in range (see `closestIdx_lt`), so
the `none` arms are unreachable. -/
def getClosestSegment (candidates : List Address) (target_num : ℕ) :
    Option StreetSegment :=
  match candidates with
  | [] => none
  | [a] => some (degenerateSegment a)
  | a :: b :: rest =>
    if closestIdx target_num (a :: b :: rest) < (a :: b :: rest).length - 1 then
      match (a :: b :: rest).get? (closestIdx target_num (a :: b :: rest)),
            (a :: b :: rest).get? (closestIdx target_num (a :: b :: rest) + 1) with
      | some curr, some next => some (segmentOf curr next)
      | _, _ => none
    else
      match (a :: b :: rest).get? (closestIdx target_num (a :: b :: rest) - 1),
            (a :: b :: rest).get? (closestIdx target_num (a :: b :: rest)) with
      | some curr, some next => some (segmentOf curr next)
      | _, _ => none

/-- `StreetSearcher.find_segment`.  The `try/except` around
`parse_number_simple` never fires (`parse_number_simple` is total and
raises neither `ValueError` nor `AttributeError` on a string), so an
unparseable target is treated as 0. -/
def findSegment (candidates : List Address) (target_number : String) :
    Option StreetSegment :=
  if candidates.isEmpty then none
  else
    match (stableSort (fun a b => decide (addrKey a ≤ addrKey b)) candidates).find?
        fun a => addrKey a == parseNumberSimple target_number with
    | some a => some (degenerateSegment a)
    | none =>
      match findEnclosingPair (parseNumberSimple target_number)
          (stableSort (fun a b => decide (addrKey a ≤ addrKey b)) candidates) with
      | some (curr, next) => some (segmentOf curr next)
      | none =>
        getClosestSegment
          (stableSort (fun a b => decide (addrKey a ≤ addrKey b)) candidates)
          (parseNumberSimple target_number)

/-- `StreetSearcher.get_street_centroid`, after its internal
`search_streets` call: `None` on an empty candidate list, else the mean of
the *truthy* coordinates — `if addr.latitude` is Python truthiness, so a
`None` **or zero** coordinate is skipped — with `None` again when either
filtered list is empty. -/
def centroidOfCandidates (candidates : List Address) : Option (ℚ × ℚ) :=
  if candidates.isEmpty then none
  else
    let lats := candidates.filterMap fun a =>
      match a.latitude with
      | some x => if x ≠ 0 then some x else none
      | none => none
    let lons := candidates.filterMap fun a =>
      match a.longitude with
      | some y => if y ≠ 0 then some y else none
      | none => none
    if lats.isEmpty || lons.isEmpty then none
    else some (lats.sum / (lats.length : ℚ), lons.sum / (lons.length : ℚ))

def getStreetCentroid (db : List Address) (street_name city region : String) :
    Option (ℚ × ℚ) :=
  centroidOfCandidates (searchStreets db street_name city region)

/-! ## GeoJSON ingester (utils/geojson_importer.py, scripts/import_geojson.py)

A decoded JSON value; the embedding starts at the decoded value (the
`json.loads` text-level parse is outside the scope of every claim; an
undecodable or blank line is represented as `none` in a line list). -/

inductive JValue where
  | null : JValue
  | bool : Bool → JValue
  | num : ℚ → JValue
  | str : String → JValue
  | arr : List JValue → JValue
  | obj : List (String × JValue) → JValue

/-- `dict.get` on a JSON object. -/
def jGet (props : List (String × JValue)) (key : String) : Option JValue :=
  (props.find? fun kv => kv.1 == key).map (·.2)

/-- A string-valued property after `or None` and the empty-string sweep
(`value.strip() == ""` — i.e. the string is all-whitespace — becomes
`None`; otherwise the original, unstripped string is kept).  Non-string
property values are modelled as absent (the reference corpus carries
strings). -/
def strField (v : Option JValue) : Option String :=
  match v with
  | some (JValue.str s) => if s.data.all isSpaceC then none else some s
  | _ => none

def jNum? : JValue → Option ℚ
  | JValue.num q => some q
  | _ => none

/-- `parse_geojson_line` on a decoded line: `None` unless the value is a
`Feature` object with at least two coordinates.  `Decimal(str(c))` for a
non-numeric coordinate (which would raise in Python) is modelled as a
parse failure; the claims never exercise it. -/
def parseGeojsonLine (data : JValue) : Option Address :=
  match data with
  | JValue.obj fields =>
    match jGet fields "type" with
    | some (JValue.str t) =>
      if t == "Feature" then
        let properties := match jGet fields "properties" with
          | some (JValue.obj ps) => ps
          | _ => []
        let coordinates := match jGet fields "geometry" with
          | some (JValue.obj gs) =>
            match jGet gs "coordinates" with
            | some (JValue.arr l) => l
            | _ => []
          | _ => []
        if coordinates.length < 2 then none
        else
          match (coordinates.get? 0).bind jNum?, (coordinates.get? 1).bind jNum? with
          | some longitude, some latitude =>
            some { hash := strField (jGet properties "hash")
                   number := strField (jGet properties "number")
                   street := strField (jGet properties "street")
                   unit := strField (jGet properties "unit")
                   city := strField (jGet properties "city")
                   district := strField (jGet properties "district")
                   region := strField (jGet properties "region")
                   postcode := strField (jGet properties "postcode")
                   external_id := strField (jGet properties "id")
                   accuracy := strField (jGet properties "accuracy")
                   longitude := some longitude
                   latitude := some latitude }
          | _, _ => none
      else none
    | _ => none
  | _ => none

/-- One row of `INSERT ... ON CONFLICT (hash) DO UPDATE SET <every value
column>`: a non-NULL hash that is already present updates that row's value
columns (the model row consists exactly of the hash and the value columns,
so the updated row equals the incoming one); a NULL hash **never**
conflicts (PostgreSQL unique indexes treat NULLs as distinct), so the row
is always inserted. -/
def upsertRow (store : List Address) (row : Address) : List Address :=
  match row.hash with
  | some h =>
    if store.any fun x => x.hash == some h then
      store.map fun x => if x.hash == some h then row else x
    else store ++ [row]
  | none => store ++ [row]

/-- Sequential upsert of the parsed rows (batching commits them in the
same order; later batches observe earlier ones). -/
def ingestRows (rows : List Address) (store : List Address) : List Address :=
  rows.foldl upsertRow store

/-- `import_geojson` on a decoded file: parse every line, drop failures,
upsert the rest in order. -/
def ingestFile (file : List JValue) (store : List Address) : List Address :=
  ingestRows (file.filterMap parseGeojsonLine) store

/-- A physical input line: `none` when blank or undecodable. -/
def lineRow (line : Option JValue) : Option Address :=
  line.bind parseGeojsonLine

/-- The yields of `read_geojson_batch` over the post-skip lines: for each
yielded batch, the cumulative number of parsed rows and the number of
post-skip input lines consumed at the moment of the yield (a full batch is
yielded on the line that filled it; the final partial batch after the
whole file is read). -/
def batchEvents (batchSize : ℕ) :
    List (Option JValue) → ℕ → ℕ → ℕ → List (ℕ × ℕ)
  | [], cur, rows, consumed => if 0 < cur then [(rows, consumed)] else []
  | l :: rest, cur, rows, consumed =>
    match lineRow l with
    | none => batchEvents batchSize rest cur rows (consumed + 1)
    | some _ =>
      if batchSize ≤ cur + 1 then
        (rows + 1, consumed + 1) :: batchEvents batchSize rest 0 (rows + 1) (consumed + 1)
      else batchEvents batchSize rest (cur + 1) (rows + 1) (consumed + 1)

/-- The checkpoint values actually written by `import_geojson`: after every
10th batch, `stats.processed + skip_lines`, where `stats.processed` is the
cumulative number of **parsed rows** (`len(batch)` sums). -/
def importCheckpoints (lines : List (Option JValue)) (batchSize skip : ℕ) :
    List ℕ :=
  ((batchEvents batchSize (lines.drop skip) 0 0 0).enumFrom 1).filterMap fun e =>
    if e.1 % 10 == 0 then some (skip + e.2.1) else none

/-- Modelled from the claim's words (for comparison): the values claim C4
says should be written — the count of input lines consumed so far,
including blank / non-Feature / unparseable lines, plus the initial skip. -/
def claimCheckpoints (lines : List (Option JValue)) (batchSize skip : ℕ) :
    List ℕ :=
  ((batchEvents batchSize (lines.drop skip) 0 0 0).enumFrom 1).filterMap fun e =>
    if e.1 % 10 == 0 then some (skip + e.2.2) else none

/-! ## Geocoding service (service.py) -/

structure GeocodingConfig where
  max_search_results : ℕ := 100
  fuzzy_search_threshold : ℚ := 7 / 10
  default_offset_distance_m : ℚ := 10
  enable_fallbacks : Bool := true

/-- `GeocodingResult` (models.py); accuracy tags are the string constants
of `AccuracyLevel`. -/
structure GeocodingResult where
  success : Bool
  latitude : Option ℚ
  longitude : Option ℚ
  accuracy : String
  side : Option Side
  matched_street : Option String
  message : String
  components : Option AddressComponents := none
  segment : Option StreetSegment := none
deriving DecidableEq, Repr

/-- Results of the two awaited store queries of one request.  `.error e`
injects an exception raised at that suspension point (the query inside
`search_streets`, resp. inside `get_street_centroid`); the rest of the
pipeline is pure. -/
structure StoreOracle where
  searchResult : Except String (List Address)
  centroidSearchResult : Except String (List Address)

/-- The `except Exception` handler of `GeocodingService.geocode`. -/
def geocodingError (e : String) : GeocodingResult :=
  { success := false, latitude := none, longitude := none,
    accuracy := "ERROR", side := none, matched_street := none,
    message := "Geocoding error: " ++ e }

def noMatchResult (components : AddressComponents) : GeocodingResult :=
  { success := false, latitude := none, longitude := none,
    accuracy := "NO_MATCH", side := none, matched_street := none,
    message := "Number " ++ components.number_prefix ++ " not found in street range",
    components := some components }

/-- `GeocodingService.geocode`: the six-phase pipeline with its fallback
path, a total function — every raise inside the `try` block (modelled by
the `Except`/`Option` failures) lands in the `except Exception` branch
`geocodingError`. -/
def geocode (cfg : GeocodingConfig)
    (bearingOffset : ℚ → ℚ → ((ℚ × ℚ) × (ℚ × ℚ)) → Side → ℚ → ℚ × ℚ)
    (oracle : StoreOracle) (address city : String) (region : String := "ANT")
    (offset_distance : Option ℚ := none) : GeocodingResult :=
  -- `offset_distance or config default` is resolved before the try block
  -- (pure, cannot raise); it is inlined at its use site below
  -- PHASE 1: PARSE
  match parse address with
  | none =>
    { success := false, latitude := none, longitude := none,
      accuracy := "PARSE_FAILED", side := none, matched_street := none,
      message := "Failed to parse address: " ++ address }
  | some components =>
    -- PHASE 2: SEARCH (may raise)
    match oracle.searchResult with
    | Except.error e => geocodingError e
    | Except.ok candidates =>
      if candidates.isEmpty then
        { success := false, latitude := none, longitude := none,
          accuracy := "NO_STREET_MATCH", side := none, matched_street := none,
          message := "No streets found matching: " ++ components.full_street_name
            ++ " in " ++ city,
          components := some components }
      else
        -- PHASE 3: MATCH (pure)
        match findSegment candidates components.number_prefix with
        | none =>
          if cfg.enable_fallbacks then
            match oracle.centroidSearchResult with
            | Except.error e => geocodingError e
            | Except.ok centroidCandidates =>
              match centroidOfCandidates centroidCandidates with
              | some centroid =>
                { success := true, latitude := some centroid.1,
                  longitude := some centroid.2, accuracy := "STREET_CENTROID",
                  side := none,
                  matched_street := some components.full_street_name,
                  message := "Used street centroid (number not found in range)",
                  components := some components }
              | none => noMatchResult components
          else noMatchResult components
        | some segment =>
          -- PHASE 4: INTERPOLATE
          match interpolate components.number_prefix segment with
          | none =>
            -- unreachable: see `interpolate_eq`
            geocodingError "Percentage must be between 0 and 1"
          | some interp =>
            -- PHASE 5: GENERATE
            match generateCoordinates segment interp.percentage with
            | none => geocodingError "float() argument must not be None"
            | some (lat, lon) =>
              -- PHASE 6: OFFSET
              match applyLateralOffset bearingOffset lat lon segment interp.side
                  (offset_distance.getD cfg.default_offset_distance_m) with
              | none => geocodingError "float() argument must not be None"
              | some (final_lat, final_lon) =>
                { success := true, latitude := some final_lat,
                  longitude := some final_lon, accuracy := "INTERPOLATED",
                  side := some interp.side,
                  matched_street := segment.street_name,
                  message := "Successfully geocoded",
                  components := some components,
                  segment := some segment }

/-! ## Helper lemmas -/

lemma clamp_bounds (value min_value max_value : ℚ) (h : min_value ≤ max_value) :
    min_value ≤ clamp value min_value max_value ∧
      clamp value min_value max_value ≤ max_value :=
  ⟨le_max_left _ _, max_le h (min_le_left _ _)⟩

/-- `interpolate` in closed form: the `__post_init__` validation never
fires because the percentage has just been clamped into [0, 1]. -/
lemma interpolate_eq (t : String) (seg : StreetSegment) :
    interpolate t seg = some
      { percentage := clamp
          (if parseNumberConcatOpt seg.end_number = parseNumberConcatOpt seg.start_number
           then 0
           else ((parseNumberConcat t : ℚ) - (parseNumberConcatOpt seg.start_number : ℚ)) /
             ((parseNumberConcatOpt seg.end_number : ℚ) - (parseNumberConcatOpt seg.start_number : ℚ))) 0 1,
        side := if parseNumberConcat t % 2 == 1 then Side.RIGHT else Side.LEFT,
        is_odd := parseNumberConcat t % 2 == 1 } := by
  unfold interpolate
  rw [if_pos (clamp_bounds _ 0 1 (by norm_num))]

lemma lerp_bounds (a c p : ℚ) (h0 : 0 ≤ p) (h1 : p ≤ 1) :
    min a c ≤ a + p * (c - a) ∧ a + p * (c - a) ≤ max a c := by
  rcases le_total a c with h | h
  · rw [min_eq_left h, max_eq_right h]
    constructor <;> nlinarith
  · rw [min_eq_right h, max_eq_left h]
    constructor <;> nlinarith

/-! ## Claim theorems -/

/-- **C5.** For every target-number string and every segment, the
interpolator computes `p = (t - s) / (e - s)` on the concatenated-digit
integer forms, returns `p = 0` on a degenerate segment (`s = e`), and the
returned `p` is always clamped into `[0, 1]`. -/
theorem interpolate_percentage_formula (t : String) (seg : StreetSegment) :
    ∃ r, interpolate t seg = some r ∧
      r.percentage =
        (if (parseNumberConcatOpt seg.end_number : ℚ) = (parseNumberConcatOpt seg.start_number : ℚ)
         then 0
         else clamp (((parseNumberConcat t : ℚ) - (parseNumberConcatOpt seg.start_number : ℚ)) /
           ((parseNumberConcatOpt seg.end_number : ℚ) - (parseNumberConcatOpt seg.start_number : ℚ))) 0 1) ∧
      0 ≤ r.percentage ∧ r.percentage ≤ 1 := by
  refine ⟨_, interpolate_eq t seg, ?_, ?_, ?_⟩
  · by_cases h : parseNumberConcatOpt seg.end_number = parseNumberConcatOpt seg.start_number
    · simp [h, clamp]
    · have h' : ¬((parseNumberConcatOpt seg.end_number : ℚ) =
          (parseNumberConcatOpt seg.start_number : ℚ)) := by exact_mod_cast h
      rw [if_neg h, if_neg h']
  · exact (clamp_bounds _ 0 1 (by norm_num)).1
  · exact (clamp_bounds _ 0 1 (by norm_num)).2

/-- **C6.** The interpolator's side tag is `RIGHT` iff the
concatenated-digit form of the target is odd, and it does not depend on
the segment. -/
theorem interpolate_side_odd_even (t : String) (seg seg' : StreetSegment) :
    ∃ r r', interpolate t seg = some r ∧ interpolate t seg' = some r' ∧
      (r.side = Side.RIGHT ↔ parseNumberConcat t % 2 = 1) ∧ r.side = r'.side := by
  refine ⟨_, _, interpolate_eq t seg, interpolate_eq t seg', ?_, rfl⟩
  by_cases h : parseNumberConcat t % 2 = 1 <;> simp [h]

/-- **C9.** For every segment whose endpoints carry coordinates and every
fraction `p ∈ [0, 1]`, the linearly interpolated point lies in the closed
bounding box of the endpoints. -/
theorem generateCoordinates_in_bbox (seg : StreetSegment) (p a b c d la lo : ℚ)
    (ha : seg.start_lat = some a) (hb : seg.start_lon = some b)
    (hc : seg.end_lat = some c) (hd : seg.end_lon = some d)
    (h0 : 0 ≤ p) (h1 : p ≤ 1)
    (hg : generateCoordinates seg p = some (la, lo)) :
    min a c ≤ la ∧ la ≤ max a c ∧ min b d ≤ lo ∧ lo ≤ max b d := by
  unfold generateCoordinates at hg
  rw [ha, hb, hc, hd] at hg
  have hla : la = a + p * (c - a) := by
    have := congrArg (fun o => (o.map Prod.fst).getD 0) hg
    simpa using this.symm
  have hlo : lo = b + p * (d - b) := by
    have := congrArg (fun o => (o.map Prod.snd).getD 0) hg
    simpa using this.symm
  subst hla hlo
  obtain ⟨m1, m2⟩ := lerp_bounds a c p h0 h1
  obtain ⟨m3, m4⟩ := lerp_bounds b d p h0 h1
  exact ⟨m1, m2, m3, m4⟩

/-- Concrete segment used by witnesses. -/
def witnessSegment : StreetSegment :=
  { street_name := some "KR 43", start_number := some "50",
    end_number := some "100", start_lat := some (559 / 100),
    start_lon := some (-758 / 10), end_lat := some (56 / 10),
    end_lon := some (-757 / 10), city := some "X" }

/-- Witness for C9 at `p = 1/2` on `witnessSegment`. -/
theorem generateCoordinates_in_bbox_witness :
    min (559 / 100 : ℚ) (56 / 10) ≤ 1119 / 200 ∧
      (1119 / 200 : ℚ) ≤ max (559 / 100) (56 / 10) ∧
      min (-758 / 10 : ℚ) (-757 / 10) ≤ -1515 / 20 ∧
      (-1515 / 20 : ℚ) ≤ max (-758 / 10) (-757 / 10) :=
  generateCoordinates_in_bbox witnessSegment (1 / 2) (559 / 100) (-758 / 10)
    (56 / 10) (-757 / 10) (1119 / 200) (-1515 / 20) rfl rfl rfl rfl
    (by norm_num) (by norm_num) (by norm_num [generateCoordinates, witnessSegment])

lemma length_insertLe {α : Type} (le : α → α → Bool) (a : α) (l : List α) :
    (insertLe le a l).length = l.length + 1 := by
  induction l with
  | nil => rfl
  | cons b t ih =>
    simp only [insertLe]
    split
    · simp
    · simp [ih]

lemma length_stableSort {α : Type} (le : α → α → Bool) (l : List α) :
    (stableSort le l).length = l.length := by
  induction l with
  | nil => rfl
  | cons a t ih =>
    show (insertLe le a (stableSort le t)).length = t.length + 1
    rw [length_insertLe, ih]

lemma closestAux_fst (t : ℕ) (l : List Address) :
    ∀ (i : ℕ) (best : ℕ × Option ℕ),
      (closestAux t l i best).1 < i + l.length ∨
        (closestAux t l i best).1 = best.1 := by
  induction l with
  | nil => intro i best; right; rfl
  | cons a rest ih =>
    intro i best
    rw [closestAux]
    have key : ∀ b' : ℕ × Option ℕ, b'.1 = i ∨ b' = best →
        (closestAux t rest (i + 1) b').1 < i + (a :: rest).length ∨
          (closestAux t rest (i + 1) b').1 = best.1 := by
      intro b' hb'
      rcases ih (i + 1) b' with h | h
      · left
        simp only [List.length_cons]
        omega
      · rcases hb' with h1 | rfl
        · left
          rw [h, h1]
          simp only [List.length_cons]
          omega
        · right
          exact h
    apply key
    split
    · left; rfl
    · right; rfl

lemma closestIdx_lt (t : ℕ) (l : List Address) (h : l ≠ []) :
    closestIdx t l < l.length := by
  have hl : 0 < l.length := List.length_pos.mpr h
  rcases closestAux_fst t l 0 (0, none) with h' | h'
  · simpa using h'
  · rw [closestIdx, h']
    exact hl

lemma getClosestSegment_isSome (l : List Address) (t : ℕ) (h : l ≠ []) :
    (getClosestSegment l t).isSome := by
  match l with
  | [a] => rfl
  | a :: b :: rest =>
    have hci := closestIdx_lt t (a :: b :: rest) (by simp)
    rw [getClosestSegment]
    by_cases hlt : closestIdx t (a :: b :: rest) < (a :: b :: rest).length - 1
    · rw [if_pos hlt]
      have h2 : closestIdx t (a :: b :: rest) + 1 < (a :: b :: rest).length := by
        simp only [List.length_cons] at hlt ⊢
        omega
      rw [List.get?_eq_get hci, List.get?_eq_get h2]
      rfl
    · rw [if_neg hlt]
      have h1 : closestIdx t (a :: b :: rest) - 1 < (a :: b :: rest).length := by
        simp only [List.length_cons] at hci ⊢
        omega
      rw [List.get?_eq_get h1, List.get?_eq_get hci]
      rfl

/-- **C2 (amended).** `find_segment` never returns `None` on a non-empty
candidate list: an unparseable target is parsed as 0 (no exception is
raised), and the nearest-fallback always produces a segment. -/
theorem findSegment_returns_segment (candidates : List Address)
    (target_number : String) (h : candidates ≠ []) :
    (findSegment candidates target_number).isSome := by
  rw [findSegment, if_neg (by simpa using h)]
  cases hf : (stableSort (fun a b => decide (addrKey a ≤ addrKey b)) candidates).find?
      fun a => addrKey a == parseNumberSimple target_number with
  | some a => rfl
  | none =>
    cases hp : findEnclosingPair (parseNumberSimple target_number)
        (stableSort (fun a b => decide (addrKey a ≤ addrKey b)) candidates) with
    | some pr =>
      rcases pr with ⟨c1, c2⟩
      rfl
    | none =>
      show (getClosestSegment _ _).isSome
      apply getClosestSegment_isSome
      intro hnil
      have := length_stableSort (fun a b => decide (addrKey a ≤ addrKey b)) candidates
      rw [hnil] at this
      exact h (List.length_eq_zero.mp this.symm)

/-- Concrete candidate used by the C2 counterexample and witness. -/
def cexAddr : Address :=
  { number := some "5", street := some "KR 43", city := some "X",
    region := some "ANT", latitude := some 1, longitude := some 2 }

/-- **C2 (counterexample).** With a non-empty candidate list and a target
containing no digit, `find_segment` returns a segment (the degenerate
nearest-fallback one), not `None` as the claim states. -/
theorem findSegment_unparseable_target_counterexample :
    findSegment [cexAddr] "NO-DIGITS" = some (degenerateSegment cexAddr) ∧
      findSegment [cexAddr] "NO-DIGITS" ≠ none := by
  refine ⟨rfl, ?_⟩
  show some (degenerateSegment cexAddr) ≠ none
  exact Option.some_ne_none _

/-- Witness for C2's amended theorem on a concrete list. -/
theorem findSegment_returns_segment_witness :
    (findSegment [cexAddr] "75").isSome :=
  findSegment_returns_segment [cexAddr] "75" (List.cons_ne_nil _ _)

/-- **C7 (amended).** When every candidate returned by the street search
has a non-zero latitude and longitude, the street centroid is the
arithmetic mean of all candidate coordinates with no candidate excluded.
(The truthiness filter `if addr.latitude` additionally drops zero
coordinates, see the counterexample.) -/
theorem getStreetCentroid_mean_of_nonzero (db : List Address)
    (street_name city region : String)
    (hne : searchStreets db street_name city region ≠ [])
    (hlat : ∀ a ∈ searchStreets db street_name city region,
      ∃ x, a.latitude = some x ∧ x ≠ 0)
    (hlon : ∀ a ∈ searchStreets db street_name city region,
      ∃ y, a.longitude = some y ∧ y ≠ 0) :
    getStreetCentroid db street_name city region =
      some
        (((searchStreets db street_name city region).filterMap
            (fun a => a.latitude)).sum /
          (((searchStreets db street_name city region).filterMap
            (fun a => a.latitude)).length : ℚ),
         ((searchStreets db street_name city region).filterMap
            (fun a => a.longitude)).sum /
          (((searchStreets db street_name city region).filterMap
            (fun a => a.longitude)).length : ℚ)) := by
  rw [getStreetCentroid, centroidOfCandidates]
  rw [if_neg (by simpa using hne)]
  have elat : (searchStreets db street_name city region).filterMap
      (fun a => match a.latitude with
        | some x => if x ≠ 0 then some x else none
        | none => none) =
      (searchStreets db street_name city region).filterMap (fun a => a.latitude) := by
    apply List.filterMap_congr
    intro a ha
    obtain ⟨x, hx, hx0⟩ := hlat a ha
    rw [hx]
    simp [hx0]
  have elon : (searchStreets db street_name city region).filterMap
      (fun a => match a.longitude with
        | some y => if y ≠ 0 then some y else none
        | none => none) =
      (searchStreets db street_name city region).filterMap (fun a => a.longitude) := by
    apply List.filterMap_congr
    intro a ha
    obtain ⟨y, hy, hy0⟩ := hlon a ha
    rw [hy]
    simp [hy0]
  rw [elat, elon]
  rw [if_neg ?_]
  rcases List.exists_mem_of_ne_nil _ hne with ⟨a, ha⟩
  obtain ⟨x, hx, -⟩ := hlat a ha
  obtain ⟨y, hy, -⟩ := hlon a ha
  have hxm : x ∈ (searchStreets db street_name city region).filterMap
      (fun a => a.latitude) := List.mem_filterMap.mpr ⟨a, ha, hx⟩
  have hym : y ∈ (searchStreets db street_name city region).filterMap
      (fun a => a.longitude) := List.mem_filterMap.mpr ⟨a, ha, hy⟩
  simp only [Bool.or_eq_true, List.isEmpty_iff, not_or]
  exact ⟨List.ne_nil_of_mem hxm, List.ne_nil_of_mem hym⟩

/-- Rows for the C7 counterexample and witness. -/
def c7ZeroLat : Address :=
  { number := some "1", street := some "KR 43", city := some "X",
    region := some "ANT", latitude := some 0, longitude := some (-75) }

def c7TenLat : Address :=
  { number := some "2", street := some "KR 43", city := some "X",
    region := some "ANT", latitude := some 10, longitude := some (-75) }

def c7Addr1 : Address :=
  { number := some "1", street := some "KR 43", city := some "X",
    region := some "ANT", latitude := some 4, longitude := some (-75) }

def c7Addr2 : Address :=
  { number := some "2", street := some "KR 43", city := some "X",
    region := some "ANT", latitude := some 6, longitude := some (-73) }

/-- **C7 (counterexample).** With two candidates at latitudes 0 and 10 the
search returns both, yet the centroid is `(10, -75)` — the zero latitude
is excluded by the truthiness filter — while the mean of all candidate
latitudes is 5. -/
theorem getStreetCentroid_zero_lat_excluded :
    searchStreets [c7ZeroLat, c7TenLat] "KR 43" "X" "ANT" = [c7ZeroLat, c7TenLat] ∧
      getStreetCentroid [c7ZeroLat, c7TenLat] "KR 43" "X" "ANT" = some (10, -75) ∧
      (10 : ℚ) ≠ (0 + 10) / 2 := by
  refine ⟨rfl, ?_, by norm_num⟩
  have hs : searchStreets [c7ZeroLat, c7TenLat] "KR 43" "X" "ANT" =
      [c7ZeroLat, c7TenLat] := rfl
  rw [getStreetCentroid, hs, centroidOfCandidates]
  norm_num [c7ZeroLat, c7TenLat, List.filterMap_cons]

/-- Witness for C7's amended theorem on concrete candidates. -/
theorem getStreetCentroid_mean_witness :
    getStreetCentroid [c7Addr1, c7Addr2] "KR 43" "X" "ANT" =
      some
        ((([c7Addr1, c7Addr2] : List Address).filterMap (fun a => a.latitude)).sum /
          ((([c7Addr1, c7Addr2] : List Address).filterMap (fun a => a.latitude)).length : ℚ),
         (([c7Addr1, c7Addr2] : List Address).filterMap (fun a => a.longitude)).sum /
          ((([c7Addr1, c7Addr2] : List Address).filterMap (fun a => a.longitude)).length : ℚ)) := by
  have hs : searchStreets [c7Addr1, c7Addr2] "KR 43" "X" "ANT" = [c7Addr1, c7Addr2] := rfl
  have := getStreetCentroid_mean_of_nonzero [c7Addr1, c7Addr2] "KR 43" "X" "ANT"
    (by rw [hs]; exact List.cons_ne_nil _ _)
    (by
      rw [hs]
      intro a ha
      rcases List.mem_pair.mp ha with rfl | rfl
      · exact ⟨4, rfl, by norm_num⟩
      · exact ⟨6, rfl, by norm_num⟩)
    (by
      rw [hs]
      intro a ha
      rcases List.mem_pair.mp ha with rfl | rfl
      · exact ⟨-75, rfl, by norm_num⟩
      · exact ⟨-73, rfl, by norm_num⟩)
  rw [this, hs]

/-! ### C3: ingestion idempotence -/

/-- All rows of `s` carrying hash `h` are exactly the row `r`. -/
def GoodFor (s : List Address) (h : String) (r : Address) : Prop :=
  (∃ x ∈ s, x.hash = some h) ∧ ∀ x ∈ s, x.hash = some h → x = r

lemma upsertRow_good (s : List Address) (r : Address) (h : String)
    (hr : r.hash = some h) : GoodFor (upsertRow s r) h r := by
  unfold GoodFor
  simp only [upsertRow, hr]
  split
  · next hany =>
    obtain ⟨x, hxmem, hxh⟩ := List.any_eq_true.mp hany
    constructor
    · exact ⟨r, List.mem_map.mpr ⟨x, hxmem, by rw [if_pos hxh]⟩, hr⟩
    · intro y hy hyh
      obtain ⟨z, hzmem, hfz⟩ := List.mem_map.mp hy
      by_cases hc : z.hash == some h
      · rw [if_pos hc] at hfz
        exact hfz.symm
      · rw [if_neg hc] at hfz
        subst hfz
        exact absurd (by simp [hyh]) hc
  · next hany =>
    constructor
    · exact ⟨r, by simp, hr⟩
    · intro y hy hyh
      rcases List.mem_append.mp hy with hys | hyr
      · exact absurd (List.any_eq_true.mpr ⟨y, hys, by simp [hyh]⟩) hany
      · simpa using hyr

lemma upsertRow_good_preserved (s : List Address) (r r' : Address) (h : String)
    (hgood : GoodFor s h r) (hne : r'.hash ≠ some h) :
    GoodFor (upsertRow s r') h r := by
  obtain ⟨⟨x, hxmem, hxh⟩, hall⟩ := hgood
  unfold GoodFor
  cases hh' : r'.hash with
  | none =>
    simp only [upsertRow, hh']
    constructor
    · exact ⟨x, List.mem_append_left _ hxmem, hxh⟩
    · intro y hy hyh
      rcases List.mem_append.mp hy with hys | hyr
      · exact hall y hys hyh
      · exfalso
        have : y = r' := by simpa using hyr
        rw [this, hh'] at hyh
        exact Option.noConfusion hyh
  | some h' =>
    have hdiff : h' ≠ h := by
      intro hcontra
      rw [hh', hcontra] at hne
      exact hne rfl
    simp only [upsertRow, hh']
    split
    · constructor
      · refine ⟨x, List.mem_map.mpr ⟨x, hxmem, ?_⟩, hxh⟩
        rw [if_neg (by simp [hxh, hdiff.symm])]
      · intro y hy hyh
        obtain ⟨z, hzmem, hfz⟩ := List.mem_map.mp hy
        by_cases hc : z.hash == some h'
        · rw [if_pos hc] at hfz
          rw [← hfz, hh'] at hyh
          exact absurd (Option.some_inj.mp hyh) hdiff
        · rw [if_neg hc] at hfz
          subst hfz
          exact hall z hzmem hyh
    · constructor
      · exact ⟨x, List.mem_append_left _ hxmem, hxh⟩
      · intro y hy hyh
        rcases List.mem_append.mp hy with hys | hyr
        · exact hall y hys hyh
        · exfalso
          have : y = r' := by simpa using hyr
          rw [this, hh'] at hyh
          exact absurd (Option.some_inj.mp hyh) hdiff

lemma foldl_good (rows : List Address) :
    ∀ (s : List Address) (h : String) (r : Address), GoodFor s h r →
      (∀ r' ∈ rows, r'.hash ≠ some h) →
      GoodFor (rows.foldl upsertRow s) h r := by
  induction rows with
  | nil => intro s h r hgood _; exact hgood
  | cons a rest ih =>
    intro s h r hgood hrows
    exact ih (upsertRow s a) h r
      (upsertRow_good_preserved s r a h hgood (hrows a (by simp)))
      (fun r' hr' => hrows r' (by simp [hr']))

lemma pass1_good (rows : List Address) :
    ∀ s0 : List Address, (∀ r ∈ rows, r.hash.isSome) →
      (rows.map (fun r => r.hash)).Nodup →
      ∀ r ∈ rows, ∃ h, r.hash = some h ∧
        GoodFor (rows.foldl upsertRow s0) h r := by
  induction rows with
  | nil => intro s0 _ _ r hr; exact absurd hr (List.not_mem_nil r)
  | cons a rest ih =>
    intro s0 hall hnodup r hr
    rcases List.mem_cons.mp hr with rfl | hrest
    · obtain ⟨h, hah⟩ := Option.isSome_iff_exists.mp (hall r (by simp))
      refine ⟨h, hah, ?_⟩
      show GoodFor (rest.foldl upsertRow (upsertRow s0 r)) h r
      apply foldl_good rest (upsertRow s0 r) h r (upsertRow_good s0 r h hah)
      intro r' hr' hcontra
      have hmem : r.hash ∈ rest.map (fun x => x.hash) :=
        List.mem_map.mpr ⟨r', hr', by rw [hcontra, hah]⟩
      exact (List.nodup_cons.mp hnodup).1 hmem
    · exact ih (upsertRow s0 a) (fun x hx => hall x (by simp [hx]))
        (List.nodup_cons.mp hnodup).2 r hrest

lemma upsertRow_id (t : List Address) (a : Address) (h : String)
    (hah : a.hash = some h) (hgood : GoodFor t h a) : upsertRow t a = t := by
  obtain ⟨⟨x, hxmem, hxh⟩, hall⟩ := hgood
  simp only [upsertRow, hah]
  rw [if_pos (List.any_eq_true.mpr ⟨x, hxmem, by simp [hxh]⟩)]
  have : t.map (fun y => if y.hash == some h then a else y) = t.map id := by
    apply List.map_congr_left
    intro y hy
    by_cases hc : y.hash == some h
    · rw [if_pos hc]
      exact (hall y hy (by simpa using hc)).symm
    · rw [if_neg hc]
      rfl
  simpa using this

lemma pass2_id (rows : List Address) :
    ∀ t : List Address,
      (∀ r ∈ rows, ∃ h, r.hash = some h ∧ GoodFor t h r) →
      rows.foldl upsertRow t = t := by
  induction rows with
  | nil => intro t _; rfl
  | cons a rest ih =>
    intro t hyp
    obtain ⟨h, hah, hgood⟩ := hyp a (by simp)
    show rest.foldl upsertRow (upsertRow t a) = t
    rw [upsertRow_id t a h hah hgood]
    exact ih t (fun r hr => hyp r (by simp [hr]))

/-- **C3 (amended).** Ingesting the same GeoJSON file twice yields the same
final store state as ingesting it once, **provided every parsed feature
carries a fingerprint** (pairwise distinct, as the unique index demands of
a batch): the upsert is hash-keyed with update-on-conflict.  Rows without a
fingerprint are re-inserted on every run (see the counterexample). -/
theorem ingestFile_idempotent (file : List JValue) (store : List Address)
    (hall : ∀ r ∈ file.filterMap parseGeojsonLine, r.hash.isSome)
    (hnodup : ((file.filterMap parseGeojsonLine).map (fun r => r.hash)).Nodup) :
    ingestFile file (ingestFile file store) = ingestFile file store := by
  apply pass2_id
  intro r hr
  exact pass1_good (file.filterMap parseGeojsonLine) store hall hnodup r hr

/-- A well-formed Feature line with fingerprint `h`. -/
def c3Feature (h : String) : JValue :=
  JValue.obj [("type", JValue.str "Feature"),
    ("properties", JValue.obj
      [("hash", JValue.str h), ("number", JValue.str "50"),
       ("street", JValue.str "KR 43"), ("city", JValue.str "X")]),
    ("geometry", JValue.obj
      [("coordinates", JValue.arr [JValue.num (-75), JValue.num 5])])]

/-- A well-formed Feature line with no `hash` property. -/
def c3FeatureNoHash : JValue :=
  JValue.obj [("type", JValue.str "Feature"),
    ("properties", JValue.obj [("number", JValue.str "50")]),
    ("geometry", JValue.obj
      [("coordinates", JValue.arr [JValue.num (-75), JValue.num 5])])]

/-- **C3 (counterexample).** A single-feature file whose feature lacks a
fingerprint: the first ingest stores one row, the second ingest inserts a
second copy (NULL hashes never conflict), so the final state differs. -/
theorem ingestFile_null_hash_not_idempotent :
    (ingestFile [c3FeatureNoHash] []).length = 1 ∧
      (ingestFile [c3FeatureNoHash] (ingestFile [c3FeatureNoHash] [])).length = 2 ∧
      ingestFile [c3FeatureNoHash] (ingestFile [c3FeatureNoHash] []) ≠
        ingestFile [c3FeatureNoHash] [] := by
  refine ⟨rfl, rfl, ?_⟩
  intro heq
  have h2 : (ingestFile [c3FeatureNoHash] (ingestFile [c3FeatureNoHash] [])).length = 2 :=
    rfl
  rw [heq] at h2
  have h1 : (ingestFile [c3FeatureNoHash] []).length = 1 := rfl
  rw [h1] at h2
  exact absurd h2 (by norm_num)

/-- Witness for C3's amended theorem: a two-feature file with distinct
fingerprints. -/
theorem ingestFile_idempotent_witness :
    ingestFile [c3Feature "a", c3Feature "b"]
        (ingestFile [c3Feature "a", c3Feature "b"] []) =
      ingestFile [c3Feature "a", c3Feature "b"] [] :=
  ingestFile_idempotent [c3Feature "a", c3Feature "b"] []
    (by
      intro r hr
      have hfm : ([c3Feature "a", c3Feature "b"].filterMap parseGeojsonLine).map
          (fun r => r.hash) = [some "a", some "b"] := rfl
      have hmem : r.hash ∈ ([c3Feature "a", c3Feature "b"].filterMap
          parseGeojsonLine).map (fun x => x.hash) :=
        List.mem_map.mpr ⟨r, hr, rfl⟩
      rw [hfm] at hmem
      rcases List.mem_pair.mp hmem with hh | hh <;> simp [hh])
    (by
      have hfm : ([c3Feature "a", c3Feature "b"].filterMap parseGeojsonLine).map
          (fun r => r.hash) = [some "a", some "b"] := rfl
      rw [hfm]
      simp)

/-- **C4.** At every 10th batch the checkpoint records the number of
**parsed features** plus the skip, not the number of input lines consumed
plus the skip: on a file whose first line is undecodable followed by ten
Feature lines (batch size 1, skip 0), the 10th batch completes after 11
lines were consumed, yet the checkpoint written is 10. -/
theorem importCheckpoints_counts_rows_not_lines :
    importCheckpoints (none :: List.replicate 10 (some (c3Feature "a"))) 1 0 = [10] ∧
      claimCheckpoints (none :: List.replicate 10 (some (c3Feature "a"))) 1 0 = [11] ∧
      importCheckpoints (none :: List.replicate 10 (some (c3Feature "a"))) 1 0 ≠
        claimCheckpoints (none :: List.replicate 10 (some (c3Feature "a"))) 1 0 := by
  refine ⟨rfl, rfl, ?_⟩
  intro h
  have h1 : importCheckpoints (none :: List.replicate 10 (some (c3Feature "a"))) 1 0 =
      [10] := rfl
  have h2 : claimCheckpoints (none :: List.replicate 10 (some (c3Feature "a"))) 1 0 =
      [11] := rfl
  rw [h1, h2] at h
  exact absurd h (by norm_num)

/-! ### C8: errors as tagged values -/

/-- Every result of `geocode` is either the `except`-handler result
`geocodingError e` for some message `e`, or one of the five tagged
outcomes. -/
lemma geocode_shape (cfg : GeocodingConfig)
    (bearingOffset : ℚ → ℚ → ((ℚ × ℚ) × (ℚ × ℚ)) → Side → ℚ → ℚ × ℚ)
    (oracle : StoreOracle) (address city region : String)
    (offset_distance : Option ℚ) :
    (∃ e, geocode cfg bearingOffset oracle address city region offset_distance =
        geocodingError e) ∨
      (geocode cfg bearingOffset oracle address city region offset_distance).accuracy ∈
        ["INTERPOLATED", "STREET_CENTROID", "PARSE_FAILED", "NO_STREET_MATCH",
         "NO_MATCH"] := by
  rw [geocode]
  cases hp : parse address with
  | none => right; simp
  | some comps =>
    dsimp only
    cases hs : oracle.searchResult with
    | error e => left; exact ⟨e, rfl⟩
    | ok cands =>
      dsimp only
      by_cases hc : cands.isEmpty
      · rw [if_pos hc]; right; simp
      · rw [if_neg hc]
        cases hf : findSegment cands comps.number_prefix with
        | none =>
          by_cases hfb : cfg.enable_fallbacks = true
          · rw [if_pos hfb]
            cases hcs : oracle.centroidSearchResult with
            | error e => left; exact ⟨e, rfl⟩
            | ok c2 =>
              dsimp only
              cases hcc : centroidOfCandidates c2 with
              | some cent => right; simp
              | none => right; simp [noMatchResult]
          · rw [if_neg hfb]; right; simp [noMatchResult]
        | some seg =>
          dsimp only
          cases hi : interpolate comps.number_prefix seg with
          | none => left; exact ⟨_, rfl⟩
          | some ir =>
            dsimp only
            cases hg : generateCoordinates seg ir.percentage with
            | none => left; exact ⟨_, rfl⟩
            | some latlon =>
              rcases latlon with ⟨la, lo⟩
              dsimp only
              cases ho : applyLateralOffset bearingOffset la lo seg ir.side
                  (offset_distance.getD cfg.default_offset_distance_m) with
              | none => left; exact ⟨_, rfl⟩
              | some fl =>
                rcases fl with ⟨fla, flo⟩
                right; simp

/-- **C8.** `geocode` never propagates an exception (it is a total
function of the request and the store behaviour): its accuracy tag is
always one of the six reachable tags; whenever the tag is `ERROR` the
result is unsuccessful with the raised message captured after
`"Geocoding error: "`; and an exception injected at the search suspension
point (after a successful parse) yields exactly the `ERROR` result built
from its message. -/
theorem geocode_errors_as_tagged_values (cfg : GeocodingConfig)
    (bearingOffset : ℚ → ℚ → ((ℚ × ℚ) × (ℚ × ℚ)) → Side → ℚ → ℚ × ℚ)
    (oracle : StoreOracle) (address city region : String)
    (offset_distance : Option ℚ) :
    (geocode cfg bearingOffset oracle address city region offset_distance).accuracy ∈
      ["INTERPOLATED", "STREET_CENTROID", "PARSE_FAILED", "NO_STREET_MATCH",
       "NO_MATCH", "ERROR"] ∧
    ((geocode cfg bearingOffset oracle address city region offset_distance).accuracy =
        "ERROR" →
      (geocode cfg bearingOffset oracle address city region offset_distance).success =
        false ∧
      ∃ e, (geocode cfg bearingOffset oracle address city region
        offset_distance).message = "Geocoding error: " ++ e) ∧
    (∀ comps e, parse address = some comps →
      oracle.searchResult = Except.error e →
      geocode cfg bearingOffset oracle address city region offset_distance =
        geocodingError e) := by
  refine ⟨?_, ?_, ?_⟩
  · rcases geocode_shape cfg bearingOffset oracle address city region offset_distance
      with ⟨e, he⟩ | hmem
    · rw [he]; simp [geocodingError]
    · simp only [List.mem_cons] at hmem ⊢
      tauto
  · intro herr
    rcases geocode_shape cfg bearingOffset oracle address city region offset_distance
      with ⟨e, he⟩ | hmem
    · rw [he]
      exact ⟨rfl, e, rfl⟩
    · exfalso
      rw [herr] at hmem
      simp at hmem
  · intro comps e hc hs
    rw [geocode, hc, hs]

/-- Witness for C8: a request whose store search raises `"boom"` returns
exactly the captured `ERROR` result. -/
theorem geocode_errors_witness :
    geocode {} (fun lat lon _ _ _ => (lat, lon))
        ⟨Except.error "boom", Except.error "boom"⟩ "KR 43 # 57 49" "X" "ANT"
        none =
      geocodingError "boom" :=
  (geocode_errors_as_tagged_values {} (fun lat lon _ _ _ => (lat, lon))
      ⟨Except.error "boom", Except.error "boom"⟩ "KR 43 # 57 49" "X" "ANT"
      none).2.2
    ⟨"KR", "43", "57", some "49", "KR 43 # 57 49"⟩ "boom" rfl rfl

/-! ### C1: the street-type alternation is closed -/

lemma searchM_alt_mem : ∀ (cs : List Char)
    (r : List Char × List Char × List Char × Option (List Char)),
    searchM cs = some r → r.1 ∈ altList := by
  intro cs
  induction cs with
  | nil => intro r h; exact absurd h (by rw [searchM]; exact Option.noConfusion)
  | cons c t ih =>
    intro r h
    rw [searchM] at h
    cases hm : matchAtPos (c :: t) with
    | some r' =>
      rw [hm] at h
      obtain ⟨alt, hmem, halt⟩ := List.exists_of_findSome?_eq_some hm
      have hr : r' = r := Option.some_inj.mp h
      subst hr
      by_cases hci : ciPrefix alt (c :: t) = true
      · rw [if_pos hci] at halt
        obtain ⟨m, -, hm2⟩ := Option.map_eq_some'.mp halt
        rw [← hm2]
        exact hmem
      · rw [if_neg hci] at halt
        exact absurd halt Option.noConfusion
    | none =>
      rw [hm] at h
      exact ih r h

/-- **C1 (amended).** The regex's street-type alternation is closed: every
successful parse yields one of the seven canonical abbreviations
CL/KR/AV/DG/TV/CIR/AUT.  The upper-cased pass-through of
`_normalize_street_type` is reachable from `parse` only for the literals
CIR and AUT (absent from the abbreviation dict); a street-type token
outside the sixteen alternatives (VIA or PASAJE included) never reaches
normalisation — such addresses fail to parse (see the counterexample). -/
theorem parse_street_type_mem_canonical (s : String) (c : AddressComponents)
    (h : parse s = some c) :
    c.street_type ∈ ["CL", "KR", "AV", "DG", "TV", "CIR", "AUT"] := by
  rw [parse] at h
  split at h
  · exact absurd h Option.noConfusion
  · obtain ⟨r, hr, hc⟩ := Option.map_eq_some'.mp h
    have hmem := searchM_alt_mem s.data r hr
    have hty : c.street_type = normalizeStreetType (String.mk r.1) := by
      rw [← hc]
    rw [hty]
    simp only [altList, List.mem_cons, List.not_mem_nil, or_false] at hmem
    rcases hmem with h1 | h1 | h1 | h1 | h1 | h1 | h1 | h1 | h1 | h1 | h1 | h1 |
      h1 | h1 | h1 | h1 <;> rw [h1] <;> decide

/-- **C1 (counterexample).** `"VIA 40 # 20"` has the grammar's shape after
the street type (digits, `#`, digits) and VIA is in the spec's table, but
the parser fails: VIA is not in the regex alternation and no alternative
occurs anywhere in the string. -/
theorem parse_via_address_fails :
    parse "VIA 40 # 20" = none ∧ parse "PASAJE 5 # 10" = none :=
  ⟨rfl, rfl⟩

/-- Witness for C1's amended theorem on a parse that succeeds. -/
theorem parse_street_type_mem_canonical_witness :
    ("KR" : String) ∈ ["CL", "KR", "AV", "DG", "TV", "CIR", "AUT"] :=
  parse_street_type_mem_canonical "KR 43 # 57 49"
    ⟨"KR", "43", "57", some "49", "KR 43 # 57 49"⟩ rfl

/-! ### C10: `re.search` is unanchored, so parse success is preserved
under arbitrary surrounding text.

Success of the pattern body at a given position is monotone under
appending input: each scanning step (`dropWhile`, `takeWhile`, the
optional letter, `#?`) either stops strictly inside the original input —
and then behaves identically on the extended input — or runs to its end,
in which case the body can only gain digits. -/

lemma dropWhile_append_of_ne_nil {p : Char → Bool} {l q : List Char}
    (h : l.dropWhile p ≠ []) :
    (l ++ q).dropWhile p = l.dropWhile p ++ q := by
  rw [List.dropWhile_append]
  simp only [List.isEmpty_iff]
  rw [if_neg h]

lemma takeWhile_append_of_ne_nil {p : Char → Bool} {l q : List Char}
    (h : l.dropWhile p ≠ []) :
    (l ++ q).takeWhile p = l.takeWhile p := by
  rw [List.takeWhile_append, if_neg]
  intro hcontra
  apply h
  have hlen := congrArg List.length (List.takeWhile_append_dropWhile p l)
  rw [List.length_append, hcontra] at hlen
  have : (l.dropWhile p).length = 0 := by omega
  exact List.length_eq_zero.mp this

lemma length_takeWhile_append_le {p : Char → Bool} (l q : List Char) :
    (l.takeWhile p).length ≤ ((l ++ q).takeWhile p).length := by
  rw [List.takeWhile_append]
  split
  · next hl =>
    rw [List.length_append, hl]
    omega
  · exact le_rfl

lemma takeWhile_append_ne_nil {p : Char → Bool} {l q : List Char}
    (h : l.takeWhile p ≠ []) : (l ++ q).takeWhile p ≠ [] := by
  intro hc
  apply h
  have hle := length_takeWhile_append_le (p := p) l q
  rw [hc] at hle
  simp only [List.length_nil, Nat.le_zero] at hle
  exact List.length_eq_zero.mp hle

lemma takeLetterOpt_snd_append {l q : List Char} (h : l ≠ []) :
    (takeLetterOpt (l ++ q)).2 = (takeLetterOpt l).2 ++ q := by
  cases l with
  | nil => exact absurd rfl h
  | cons c t =>
    by_cases hA : isAlphaC c = true <;> simp [takeLetterOpt, hA]

lemma afterHash_append {l q : List Char} (h : l ≠ []) :
    afterHash (l ++ q) = afterHash l ++ q := by
  cases l with
  | nil => exact absurd rfl h
  | cons c t =>
    by_cases hH : (c == '#') = true <;> simp [afterHash, hH]

lemma prefixRun_append {u2 q : List Char} (h2 : u2 ≠ [])
    (hp : prefixRun u2 ≠ []) : prefixRun (u2 ++ q) ≠ [] := by
  rw [prefixRun, preSearchTail, takeLetterOpt_snd_append h2]
  by_cases h4 : ((takeLetterOpt u2).2).dropWhile isSpaceC = []
  · exfalso
    apply hp
    rw [prefixRun, preSearchTail, h4]
    rfl
  · rw [dropWhile_append_of_ne_nil h4,
      afterHash_append h4]
    by_cases h6 : (afterHash (((takeLetterOpt u2).2).dropWhile isSpaceC)).dropWhile
        isSpaceC = []
    · exfalso
      apply hp
      rw [prefixRun, preSearchTail, h6]
      rfl
    · rw [dropWhile_append_of_ne_nil h6]
      exact takeWhile_append_ne_nil hp

lemma matchAfterAlt_append (u q : List Char) (h : (matchAfterAlt u).isSome) :
    (matchAfterAlt (u ++ q)).isSome := by
  rw [matchAfterAlt] at h
  by_cases hd : (nameRun u).isEmpty = true
  · rw [if_pos hd] at h
    simp at h
  · rw [if_neg hd] at h
    have hdne : nameRun u ≠ [] := fun hc => hd (List.isEmpty_iff.mpr hc)
    have hu1 : u.dropWhile isSpaceC ≠ [] := by
      intro hc
      apply hdne
      rw [nameRun, hc]
      rfl
    have hsp : (u ++ q).dropWhile isSpaceC = u.dropWhile isSpaceC ++ q :=
      dropWhile_append_of_ne_nil hu1
    by_cases hAr : afterRun u = []
    · -- the digit run reaches the end of `u`, so the full-greedy prefix
      -- run is empty and `h` went through the backtracking branch
      have hp0 : prefixRun (afterRun u) = [] := by rw [hAr]; rfl
      rw [hp0, if_pos (show ([] : List Char).isEmpty = true from rfl)] at h
      by_cases hlen : 2 ≤ (nameRun u).length
      · have hname' : 2 ≤ (nameRun (u ++ q)).length := by
          have hmono : (nameRun u).length ≤ (nameRun (u ++ q)).length := by
            rw [nameRun, nameRun, hsp]
            exact length_takeWhile_append_le _ _
          omega
        have hne' : nameRun (u ++ q) ≠ [] := by
          intro hc
          rw [hc] at hname'
          simp at hname'
        rw [matchAfterAlt, if_neg (fun hc => hne' (List.isEmpty_iff.mp hc))]
        by_cases hp' : (prefixRun (afterRun (u ++ q))).isEmpty = true
        · rw [if_pos hp', if_pos hname']
          rfl
        · rw [if_neg hp']
          rfl
      · rw [if_neg hlen] at h
        simp at h
    · -- the digit run stops inside `u`: the scans are unchanged
      have hd' : nameRun (u ++ q) = nameRun u := by
        rw [nameRun, nameRun, hsp]
        exact takeWhile_append_of_ne_nil hAr
      have hAr2 : afterRun (u ++ q) = afterRun u ++ q := by
        rw [afterRun, afterRun, hsp]
        exact dropWhile_append_of_ne_nil hAr
      rw [matchAfterAlt, hd', hAr2, if_neg hd]
      by_cases hp : (prefixRun (afterRun u)).isEmpty = true
      · rw [if_pos hp] at h
        by_cases hlen : 2 ≤ (nameRun u).length
        · by_cases hp' : (prefixRun (afterRun u ++ q)).isEmpty = true
          · rw [if_pos hp', if_pos hlen]
            rfl
          · rw [if_neg hp']
            rfl
        · rw [if_neg hlen] at h
          simp at h
      · have hpne : prefixRun (afterRun u) ≠ [] :=
          fun hc => hp (List.isEmpty_iff.mpr hc)
        have hpq : prefixRun (afterRun u ++ q) ≠ [] := prefixRun_append hAr hpne
        rw [if_neg (fun hc => hpq (List.isEmpty_iff.mp hc))]
        rfl

lemma ciPrefix_append (a : List Char) :
    ∀ (l q : List Char), ciPrefix a l = true → ciPrefix a (l ++ q) = true := by
  induction a with
  | nil => intro l q _; rfl
  | cons x xs ih =>
    intro l q h
    cases l with
    | nil => exact absurd h (by rw [ciPrefix]; simp)
    | cons c t =>
      simp only [ciPrefix, Bool.and_eq_true] at h ⊢
      exact ⟨h.1, ih t q h.2⟩

lemma ciPrefix_length_le (a : List Char) :
    ∀ l : List Char, ciPrefix a l = true → a.length ≤ l.length := by
  induction a with
  | nil => intro l _; simp
  | cons x xs ih =>
    intro l h
    cases l with
    | nil => exact absurd h (by rw [ciPrefix]; simp)
    | cons c t =>
      rw [ciPrefix] at h
      simp only [Bool.and_eq_true] at h
      simp only [List.length_cons]
      exact Nat.succ_le_succ (ih t h.2)

lemma findSome?_isSome_of_mem {α β : Type} {f : α → Option β} {l : List α}
    {a : α} (ha : a ∈ l) (hf : (f a).isSome) : (l.findSome? f).isSome := by
  induction l with
  | nil => cases ha
  | cons b t ih =>
    rw [List.findSome?_cons]
    cases hb : f b with
    | some x => rfl
    | none =>
      rcases List.mem_cons.mp ha with rfl | hat
      · rw [hb] at hf
        exact absurd hf (by simp)
      · exact ih hat

lemma matchAtPos_append (cs q : List Char) (h : (matchAtPos cs).isSome) :
    (matchAtPos (cs ++ q)).isSome := by
  rw [matchAtPos] at h
  obtain ⟨r, hr⟩ := Option.isSome_iff_exists.mp h
  obtain ⟨alt, hmem, halt⟩ := List.exists_of_findSome?_eq_some hr
  by_cases hci : ciPrefix alt cs = true
  · rw [if_pos hci] at halt
    have hma : (matchAfterAlt (cs.drop alt.length)).isSome := by
      rcases Option.map_eq_some'.mp halt with ⟨m, hm, -⟩
      rw [hm]
      rfl
    have hlen := ciPrefix_length_le alt cs hci
    have hdrop : (cs ++ q).drop alt.length = cs.drop alt.length ++ q := by
      rw [List.drop_append_eq_append_drop, Nat.sub_eq_zero_of_le hlen,
        List.drop_zero]
    rw [matchAtPos]
    apply findSome?_isSome_of_mem hmem
    rw [if_pos (ciPrefix_append alt cs q hci), hdrop]
    simpa using matchAfterAlt_append (cs.drop alt.length) q hma
  · rw [if_neg hci] at halt
    exact absurd halt Option.noConfusion

lemma searchM_eq_some_suffix :
    ∀ (cs : List Char) (r : List Char × List Char × List Char × Option (List Char)),
      searchM cs = some r → ∃ t, t <:+ cs ∧ matchAtPos t = some r := by
  intro cs
  induction cs with
  | nil => intro r h; exact absurd h (by rw [searchM]; exact Option.noConfusion)
  | cons c t ih =>
    intro r h
    rw [searchM] at h
    cases hm : matchAtPos (c :: t) with
    | some r' =>
      rw [hm] at h
      have h' : some r' = some r := h
      exact ⟨c :: t, List.suffix_refl _, by rw [hm]; exact h'⟩
    | none =>
      rw [hm] at h
      have h' : searchM t = some r := h
      obtain ⟨t', ht', hmp⟩ := ih r h'
      exact ⟨t', ht'.trans (List.suffix_cons c t), hmp⟩

lemma searchM_isSome_of_suffix :
    ∀ (cs t : List Char), t <:+ cs → (matchAtPos t).isSome →
      (searchM cs).isSome := by
  intro cs
  induction cs with
  | nil =>
    intro t ht h
    rw [List.suffix_nil.mp ht] at h
    have hnone : matchAtPos ([] : List Char) = none := rfl
    rw [hnone] at h
    exact absurd h (by decide)
  | cons c cs' ih =>
    intro t ht h
    rw [searchM]
    rcases List.suffix_cons_iff.mp ht with rfl | hts
    · cases hm : matchAtPos (c :: cs') with
      | some r => rfl
      | none =>
        rw [hm] at h
        exact absurd h (by decide)
    · cases hm : matchAtPos (c :: cs') with
      | some r => rfl
      | none => exact ih t hts h

/-- **C10.** `re.search` scans every position with no anchoring, so if
`parse` succeeds on `s`, it also succeeds on `p ++ s ++ q` for arbitrary
surrounding text `p`, `q`. -/
theorem parse_succeeds_on_superstring (p s q : String) (c : AddressComponents)
    (h : parse s = some c) : (parse (p ++ s ++ q)).isSome := by
  rw [parse] at h
  split at h
  · exact absurd h Option.noConfusion
  · next hne =>
    obtain ⟨r, hr, -⟩ := Option.map_eq_some'.mp h
    obtain ⟨t, ht, hmp⟩ := searchM_eq_some_suffix s.data r hr
    have hdata : (p ++ s ++ q).data = p.data ++ s.data ++ q.data := by
      rw [String.data_append, String.data_append]
    have hsne : s.data ≠ [] := fun hc => hne (by rw [hc]; rfl)
    rw [parse, hdata, if_neg ?hempty]
    case hempty =>
      intro hc
      apply hsne
      have := List.isEmpty_iff.mp hc
      rcases List.append_eq_nil.mp this with ⟨h1, h2⟩
      exact (List.append_eq_nil.mp h1).2
    have hsome : (searchM (p.data ++ s.data ++ q.data)).isSome := by
      apply searchM_isSome_of_suffix _ (t ++ q.data)
      · obtain ⟨u, hu⟩ := ht
        refine ⟨p.data ++ u, ?_⟩
        rw [List.append_assoc p.data u (t ++ q.data), ← List.append_assoc u t q.data,
          hu, ← List.append_assoc]
      · exact matchAtPos_append t q.data (by rw [hmp]; rfl)
    obtain ⟨r2, hr2⟩ := Option.isSome_iff_exists.mp hsome
    rw [hr2]
    rfl

/-- Witness for C10: the claim's own example `'xxKR 43 # 57 49yy'`. -/
theorem parse_succeeds_on_superstring_witness :
    (parse ("xx" ++ "KR 43 # 57 49" ++ "yy")).isSome :=
  parse_succeeds_on_superstring "xx" "KR 43 # 57 49" "yy"
    ⟨"KR", "43", "57", some "49", "KR 43 # 57 49"⟩ rfl

end Geocode
